import Mathlib

set_option maxRecDepth 100000

/-!
Shallow embedding of the photobg repository (App.tsx, index.tsx, types.ts).

The program is a browser front end: a file-upload handler, an instruction
selector, a thin wrapper (`editImage`) around one generation request to a
remote service, and two near-identical processing pipelines
(`handleRemove` in App.tsx, `processImage` in index.tsx).

JavaScript runtime conventions used throughout the embedding:
an absent (`undefined`/`null`) value is `Option.none`; the string `""` is
the only falsy string; an array (even empty) is truthy; an object is
truthy; property access on `undefined` raises a TypeError.
-/

/-- Mirrors `interface ImageState` (types.ts).  The TypeScript type of
`originalBase64` is `string`, but the value stored by the upload handler is
`reader.result.split(',')[1]`, which at runtime is `undefined` when the
reader result contains no comma; the embedding therefore uses
`Option String`, with `some` for the well-formed case. -/
structure ImageState where
  originalUrl : String
  originalBase64 : Option String
  resultUrl : Option String
  mimeType : String
deriving DecidableEq

/-- Mirrors `interface ProcessingStatus` (types.ts): `error` is
`string | null`. -/
structure ProcessingStatus where
  isLoading : Bool
  message : String
  error : Option String
deriving DecidableEq

/-- The component state the claims talk about: the `image` and `status`
`useState` cells of the App component. -/
structure AppState where
  image : Option ImageState
  status : ProcessingStatus
deriving DecidableEq

/- Mirrors `enum RemovalPresets` from types.ts, the version imported by
App.tsx (index.tsx carries its own local variant with different strings,
not needed by any claim). -/
namespace RemovalPresets

def TRANSPARENT_BG : String :=
  "Remove the entire background and make it 100% transparent. The output must be a PNG image with a proper alpha channel transparency, leaving only the main subject. Do not use a solid white or black background."

def OBJECTS : String :=
  "Identify and remove distracting background objects or people while keeping the main subject and maintaining the background context."

def TEXT : String :=
  "Detect and remove all text, captions, or watermarks from this image, healing the background behind them seamlessly."

def CLEANUP : String :=
  "Perform professional image retouching: remove blemishes, dust, and distracting small details to make the photo look studio-quality."

def ENHANCE : String :=
  "Enhance this image: improve the resolution, sharpness, lighting, and overall color balance. Make it look professional, vibrant, and clear while maintaining its original content."

end RemovalPresets

/-- The five preset strings App.tsx ever passes as the `customInstruction`
argument of `handleRemove` (its five button `onClick` handlers). -/
def removalPresetList : List String :=
  [RemovalPresets.TRANSPARENT_BG, RemovalPresets.OBJECTS, RemovalPresets.TEXT,
   RemovalPresets.CLEANUP, RemovalPresets.ENHANCE]

/-- JavaScript `s || d` on strings: `""` is the only falsy string. -/
def jsOr (s d : String) : String := if s = "" then d else s

/-- JavaScript `c || d` where `c : string | undefined`
(`undefined` is falsy, `""` is falsy). -/
def jsOrOpt (c : Option String) (d : String) : String :=
  match c with
  | none => d
  | some v => jsOr v d

/-- Mirrors `inlineData: { data, mimeType }` of a response part of the
generation API. -/
structure InlineData where
  data : String
  mimeType : String
deriving DecidableEq

/-- A part of a response candidate: optional `inlineData`, optional
`text`. -/
structure ResponsePart where
  inlineData : Option InlineData
  text : Option String
deriving DecidableEq

/-- `content` of a response candidate: an optional `parts` array. -/
structure Content where
  parts : Option (List ResponsePart)
deriving DecidableEq

/-- One entry of `response.candidates`: an optional `content`. -/
structure Candidate where
  content : Option Content
deriving DecidableEq

/-- The generation API response shape `editImage` inspects: an optional
`candidates` array. -/
structure GenResponse where
  candidates : Option (List Candidate)
deriving DecidableEq

/-- A part of the request `contents`: either inline image data or text. -/
inductive ReqPart where
  | inline (data : String) (mimeType : String)
  | text (s : String)
deriving DecidableEq

/-- The single `ai.models.generateContent` request `editImage` builds. -/
structure GenRequest where
  model : String
  parts : List ReqPart
deriving DecidableEq

/-- The three ways the extraction step of `editImage` can finish at
runtime: return a data URL, throw
`"AI did not return an image. Try being more specific about what to
remove."`, or raise a JavaScript TypeError from a property access on
`undefined`. -/
inductive ExtractResult where
  | ok (url : String)
  | noImageError
  | jsTypeError
deriving DecidableEq

/-- The `for (const part of parts) if (part.inlineData) { ... = part.inlineData.data; break }`
loop of `editImage`: the `data` field of the first part whose `inlineData`
is present (truthy), if any. -/
def findInlineData : List ResponsePart → Option String
  | [] => none
  | p :: ps =>
    match p.inlineData with
    | some d => some d.data
    | none => findInlineData ps

/-- Lines 62-76 of index.tsx, the extraction step of `editImage`, at
JavaScript runtime semantics:
`if (response.candidates && response.candidates[0].content.parts) {...}`.
An absent `candidates` makes the guard falsy, so `editedImageBase64` stays
`''` and the no-image error is thrown; a present but empty `candidates`
array is truthy, so `candidates[0]` is `undefined` and `.content` raises a
TypeError; likewise `.parts` raises a TypeError when the first candidate
has no `content`.  An absent `parts` makes the guard falsy (no-image
error).  Otherwise the loop runs; `!editedImageBase64` is true exactly
when no part had `inlineData` or the first such part carried `data` equal
to `''`. -/
def extractImage (r : GenResponse) : ExtractResult :=
  match r.candidates with
  | none => ExtractResult.noImageError
  | some [] => ExtractResult.jsTypeError
  | some (c :: _) =>
    match c.content with
    | none => ExtractResult.jsTypeError
    | some ct =>
      match ct.parts with
      | none => ExtractResult.noImageError
      | some ps =>
        match findInlineData ps with
        | none => ExtractResult.noImageError
        | some d =>
          if d = "" then ExtractResult.noImageError
          else ExtractResult.ok ("data:image/png;base64," ++ d)

/-- The request object built at lines 52-60 of index.tsx. -/
def geminiRequest (base64Data mimeType instruction : String) : GenRequest :=
  { model := "gemini-2.5-flash-image"
    parts := [ReqPart.inline base64Data mimeType, ReqPart.text instruction] }

/-- `editImage` of index.tsx, instrumented with the list of requests it
issues; the service itself is abstracted as a function `api` from request
to response.  The body issues exactly the one request `geminiRequest`
builds and applies the extraction step to the response. -/
def editImageT (api : GenRequest → GenResponse)
    (base64Data mimeType instruction : String) : List GenRequest × ExtractResult :=
  let req := geminiRequest base64Data mimeType instruction
  ([req], extractImage (api req))

/-- `editImage` of index.tsx: outcome of the one call. -/
def editImage (api : GenRequest → GenResponse)
    (base64Data mimeType instruction : String) : ExtractResult :=
  (editImageT api base64Data mimeType instruction).2

/-- An uploaded file, reduced to the one field the handlers read. -/
structure File where
  type : String
deriving DecidableEq

/-- JavaScript `s.startsWith(p)` on character lists: `p` is an initial
segment of `s`. -/
def jsStartsWith : List Char → List Char → Bool
  | _, [] => true
  | [], _ :: _ => false
  | c :: cs, p :: ps => c = p && jsStartsWith cs ps

/-- JavaScript `String.prototype.split(',')` on the character list of a
string: splits at every comma, keeping empty segments. -/
def splitOnComma : List Char → List (List Char)
  | [] => [[]]
  | c :: cs =>
    if c = ',' then [] :: splitOnComma cs
    else
      match splitOnComma cs with
      | [] => [[c]]
      | g :: gs => (c :: g) :: gs

/-- `s.split(',')` as a list of strings. -/
def strSplitComma (s : String) : List String :=
  (splitOnComma s.data).map String.mk

/-- Lines 19-40 of App.tsx (`handleFileUpload`) and the textually identical
`handleFileChange` of index.tsx.  `file` is `e.target.files?.[0]`;
`readerResult` is the data URL the FileReader delivers to `onload`
(modelled synchronously: the success branch is the state after `onload`
has fired).  `split(',')[1]` is `undefined` when the result has no comma,
hence the `Option` via `List.get?`. -/
def handleFileUpload (st : AppState) (file : Option File) (readerResult : String) : AppState :=
  match file with
  | none => st
  | some f =>
    if !(jsStartsWith f.type.data "image/".data) then
      { st with status := { st.status with error := some "Please upload a valid image file." } }
    else
      { image := some
          { originalUrl := readerResult
            originalBase64 := (strSplitComma readerResult).get? 1
            resultUrl := none
            mimeType := f.type }
        status := { isLoading := false, message := "", error := none } }

/-- `handleFileChange` of index.tsx, identical line for line to
`handleFileUpload` of App.tsx. -/
def handleFileChange : AppState → Option File → String → AppState := handleFileUpload

/-- Lines 42-70 of App.tsx (`handleRemove`), instrumented with the
instruction passed to the service (`none` when no call is made because no
image is loaded).  The `gemini.editImage` call is abstracted as `edit`,
a function from the arguments `(image.originalBase64, image.mimeType,
finalInstruction)` to its outcome: `Except.ok` a result URL, or
`Except.error` the thrown error's `message` (a JavaScript `Error.message`
is always a string, defaulting to `""`).
`finalInstruction = customInstruction || instruction || RemovalPresets.TRANSPARENT_BG`;
on success `setImage(prev => prev ? { ...prev, resultUrl } : null)` then a
cleared status; on error `err.message || 'Something went wrong. Please try
again.'`. -/
def handleRemoveT (st : AppState) (customInstruction : Option String) (instruction : String)
    (edit : Option String → String → String → Except String String) :
    Option String × AppState :=
  match st.image with
  | none => (none, st)
  | some img =>
    let finalInstruction :=
      jsOrOpt customInstruction (jsOr instruction RemovalPresets.TRANSPARENT_BG)
    let st1 : AppState :=
      { st with status :=
          { isLoading := true, message := "Processing your image with AI magic...", error := none } }
    (some finalInstruction,
      match edit img.originalBase64 img.mimeType finalInstruction with
      | Except.ok resultUrl =>
        { st1 with
            image := st1.image.map (fun prev => { prev with resultUrl := some resultUrl })
            status := { isLoading := false, message := "", error := none } }
      | Except.error err =>
        { st1 with status :=
            { isLoading := false, message := ""
              error := some (jsOr err "Something went wrong. Please try again.") } })

/-- `handleRemove` of App.tsx: the final component state. -/
def handleRemove (st : AppState) (customInstruction : Option String) (instruction : String)
    (edit : Option String → String → String → Except String String) : AppState :=
  (handleRemoveT st customInstruction instruction edit).2

/-- Lines 115-126 of index.tsx (`processImage`): same pipeline, but the
instruction is taken as given, the loading message differs, and the catch
branch stores `err.message` with no fallback. -/
def processImage (st : AppState) (instruction : String)
    (edit : Option String → String → String → Except String String) : AppState :=
  match st.image with
  | none => st
  | some img =>
    let st1 : AppState :=
      { st with status :=
          { isLoading := true, message := "Gemini is processing your request...", error := none } }
    match edit img.originalBase64 img.mimeType instruction with
    | Except.ok resultUrl =>
      { st1 with
          image := st1.image.map (fun prev => { prev with resultUrl := some resultUrl })
          status := { isLoading := false, message := "", error := none } }
    | Except.error err =>
      { st1 with status := { isLoading := false, message := "", error := some err } }

/-- True when the first candidate of the response exists and its content
has a parts list containing at least one part with `inlineData` present. -/
def hasInlinePart : List ResponsePart → Bool
  | [] => false
  | p :: ps => p.inlineData.isSome || hasInlinePart ps

/-- Whether the response's first candidate has a parts list containing at
least one part with inline image data (the hypothesis of claims C1/C2). -/
def firstCandidateHasInlinePart (r : GenResponse) : Bool :=
  match r.candidates with
  | some (c :: _) =>
    match c.content with
    | some ct =>
      match ct.parts with
      | some ps => hasInlinePart ps
      | none => false
    | none => false
  | _ => false

/-- True when the extraction step finished without a TypeError: it either
returned a URL or threw the single no-image error. -/
def isOkOrNoImage : ExtractResult → Bool
  | ExtractResult.jsTypeError => false
  | _ => true

/-- A service stub returning a fixed response to every request. -/
def constApi (r : GenResponse) : GenRequest → GenResponse := fun _ => r

/-- A response whose first (and only) candidate has one part carrying
inline data with `data` equal to the empty string. -/
def respEmptyData : GenResponse :=
  { candidates := some
      [{ content := some
          { parts := some
              [{ inlineData := some { data := "", mimeType := "image/png" }, text := none }] } }] }

/-- A response whose `candidates` field is present but an empty array. -/
def respEmptyCandidates : GenResponse := { candidates := some [] }

/-- A response part with nonempty inline data whose service-side mime type
is not png. -/
def part0 : ResponsePart :=
  { inlineData := some { data := "QUJD", mimeType := "image/webp" }, text := none }

/-- A candidate content holding the single part `part0`. -/
def ct0 : Content := { parts := some [part0] }

/-- A candidate holding `ct0`. -/
def cand0 : Candidate := { content := some ct0 }

/-- A well-formed success response: one candidate, one part with nonempty
inline data whose service-side mime type is not png. -/
def respGood : GenResponse := { candidates := some [cand0] }

/-- A loaded image used as a concrete fixture. -/
def img0 : ImageState :=
  { originalUrl := "data:image/png;base64,QUJD"
    originalBase64 := some "QUJD"
    resultUrl := none
    mimeType := "image/png" }

/-- A component state with an image loaded and an idle status. -/
def st0 : AppState :=
  { image := some img0, status := { isLoading := false, message := "", error := none } }

theorem splitOnComma_eq_single (l : List Char) (h : ',' ∉ l) : splitOnComma l = [l] := by
  induction l with
  | nil => rfl
  | cons c cs ih =>
    rw [List.mem_cons] at h
    push_neg at h
    obtain ⟨h1, h2⟩ := h
    have h1' : ¬ (c = ',') := fun hc => h1 hc.symm
    simp [splitOnComma, h1', ih h2]

theorem splitOnComma_append (a b : List Char) (ha : ',' ∉ a) :
    splitOnComma (a ++ ',' :: b) = a :: splitOnComma b := by
  induction a with
  | nil => simp [splitOnComma]
  | cons c a' ih =>
    rw [List.mem_cons] at ha
    push_neg at ha
    obtain ⟨h1, h2⟩ := ha
    have h1' : ¬ (c = ',') := fun hc => h1 hc.symm
    simp [splitOnComma, h1', ih h2]

/-- C1 fails as stated: at a response whose first candidate has a parts
list containing a part with inline image data whose `data` field is the
empty string, `editImage` throws the no-image error instead of returning
`'data:image/png;base64,'` concatenated with that (empty) data field. -/
theorem c1_counterexample :
    firstCandidateHasInlinePart respEmptyData = true ∧
    editImage (constApi respEmptyData) "QUJD" "image/png" "remove the background" ≠
      ExtractResult.ok ("data:image/png;base64," ++ "") := by
  decide

/-- C1 (amended): for every API response whose first candidate has a parts
list whose first part carrying inline image data has a nonempty `data`
field `d`, `editImage` returns `'data:image/png;base64,' ++ d`; the
returned URL therefore always carries the `image/png` media type,
regardless of the mime type the service attached to the inline data. -/
theorem c1_first_inline_data_url (api : GenRequest → GenResponse)
    (b m i : String) (c : Candidate) (rest : List Candidate) (ct : Content)
    (ps : List ResponsePart) (d : String)
    (hcand : (api (geminiRequest b m i)).candidates = some (c :: rest))
    (hct : c.content = some ct)
    (hps : ct.parts = some ps)
    (hd : findInlineData ps = some d)
    (hne : d ≠ "") :
    editImage api b m i = ExtractResult.ok ("data:image/png;base64," ++ d) := by
  show extractImage (api (geminiRequest b m i)) = _
  simp only [extractImage, hcand, hct, hps, hd]
  rw [if_neg hne]

/-- Witness for the amended C1 at a concrete response whose inline data
carries mime type `image/webp` and data `QUJD`. -/
theorem c1_first_inline_data_url_witness :
    ((constApi respGood (geminiRequest "QUJD" "image/png" "remove the background")).candidates =
        some (cand0 :: []) ∧
      cand0.content = some ct0 ∧
      ct0.parts = some [part0] ∧
      findInlineData [part0] = some "QUJD" ∧
      "QUJD" ≠ "") ∧
    editImage (constApi respGood) "QUJD" "image/png" "remove the background" =
      ExtractResult.ok ("data:image/png;base64," ++ "QUJD") :=
  ⟨⟨by decide, by decide, by decide, by decide, by decide⟩,
   c1_first_inline_data_url (constApi respGood) "QUJD" "image/png" "remove the background"
     cand0 [] ct0 [part0] "QUJD" (by decide) (by decide) (by decide) (by decide) (by decide)⟩

/-- C2 fails as stated: its "only if" direction is violated at a response
whose first candidate does contain a part with inline image data (so the
claim says the error is not thrown), yet `editImage` throws the no-image
error because that part's `data` field is the empty string. -/
theorem c2_counterexample :
    firstCandidateHasInlinePart respEmptyData = true ∧
    editImage (constApi respEmptyData) "QUJD" "image/png" "remove the background" =
      ExtractResult.noImageError := by
  decide

/-- C2 (amended): the extraction step of `editImage` throws the error
`'AI did not return an image. Try being more specific about what to
remove.'` if and only if the response has no `candidates` field at all, or
its first candidate exists with a `content` whose `parts` field is absent,
or present but without any inline-data part, or whose first inline-data
part carries empty data.  (When `candidates` is present but empty, or the
first candidate lacks `content`, a TypeError is raised instead, so neither
side of the equivalence holds there.) -/
theorem c2_no_image_error_iff (r : GenResponse) :
    extractImage r = ExtractResult.noImageError ↔
      (r.candidates = none ∨
       ∃ c rest ct, r.candidates = some (c :: rest) ∧ c.content = some ct ∧
         (ct.parts = none ∨
          ∃ ps, ct.parts = some ps ∧
            (findInlineData ps = none ∨ findInlineData ps = some ""))) := by
  obtain ⟨cands⟩ := r
  cases cands with
  | none => simp [extractImage]
  | some l =>
    cases l with
    | nil => simp [extractImage]
    | cons c rest =>
      obtain ⟨ctOpt⟩ := c
      cases ctOpt with
      | none => simp [extractImage]
      | some ct =>
        obtain ⟨psOpt⟩ := ct
        cases psOpt with
        | none => simp [extractImage]
        | some ps =>
          cases hf : findInlineData ps with
          | none => simp [extractImage, hf]
          | some d =>
            by_cases hd : d = ""
            · subst hd
              simp [extractImage, hf]
            · simp [extractImage, hf, hd]

/-- C3: for every error thrown by the edit call, `handleRemove` (App.tsx)
finishes with `isLoading` false, `message` empty, and `error` set to the
thrown error's message, falling back to `'Something went wrong. Please try
again.'` when that message is absent (the empty, falsy string), and
`processImage` (index.tsx) finishes with `isLoading` false, `message`
empty, and `error` set to the thrown error's message as is; in both
pipelines the image state, including any previously stored `resultUrl`, is
exactly what it was before the call. -/
theorem c3_error_state (st : AppState) (img : ImageState) (c : Option String)
    (ins msg : String) (h : st.image = some img) :
    handleRemove st c ins (fun _ _ _ => Except.error msg) =
      { image := st.image
        status := { isLoading := false, message := ""
                    error := some (jsOr msg "Something went wrong. Please try again.") } } ∧
    processImage st ins (fun _ _ _ => Except.error msg) =
      { image := st.image
        status := { isLoading := false, message := "", error := some msg } } := by
  constructor <;>
    simp [handleRemove, handleRemoveT, processImage, h]

/-- Witness for C3 at the fixture state `st0` and a thrown error whose
message is `boom`. -/
theorem c3_error_state_witness :
    st0.image = some img0 ∧
    (handleRemove st0 none "" (fun _ _ _ => Except.error "boom") =
      { image := st0.image
        status := { isLoading := false, message := ""
                    error := some (jsOr "boom" "Something went wrong. Please try again.") } } ∧
    processImage st0 "" (fun _ _ _ => Except.error "boom") =
      { image := st0.image
        status := { isLoading := false, message := "", error := some "boom" } }) :=
  ⟨by decide, c3_error_state st0 img0 none "" "boom" (by decide)⟩

/-- C4 fails as stated: when the response's `candidates` list is present
but empty, the extraction step of `editImage` raises a TypeError (reading
`.content` of `undefined`) rather than returning a string or throwing the
single no-image error. -/
theorem c4_counterexample :
    respEmptyCandidates.candidates = some [] ∧
    isOkOrNoImage (extractImage respEmptyCandidates) = false := by
  decide

/-- C4 (amended): the extraction step of `editImage` is total — it either
returns a string or throws the single no-image error — provided that the
`candidates` field, when present, is a nonempty list whose first candidate
has a `content` field; without that proviso (candidates present but empty,
or first candidate lacking `content`) a TypeError escapes instead. -/
theorem c4_total_when_guarded (r : GenResponse)
    (h : r.candidates = none ∨
         ∃ c rest, r.candidates = some (c :: rest) ∧ c.content ≠ none) :
    isOkOrNoImage (extractImage r) = true := by
  rcases h with h | ⟨c, rest, h, hc⟩
  · simp [extractImage, h, isOkOrNoImage]
  · rcases hct : c.content with _ | ct
    · exact absurd hct hc
    · rcases hps : ct.parts with _ | ps
      · simp [extractImage, h, hct, hps, isOkOrNoImage]
      · rcases hf : findInlineData ps with _ | d
        · simp [extractImage, h, hct, hps, hf, isOkOrNoImage]
        · by_cases hd : d = "" <;>
            simp [extractImage, h, hct, hps, hf, hd, isOkOrNoImage]

/-- Witness for the amended C4 at the response with no `candidates`
field. -/
theorem c4_total_when_guarded_witness :
    ((GenResponse.mk none).candidates = none ∨
      ∃ c rest, (GenResponse.mk none).candidates = some (c :: rest) ∧ c.content ≠ none) ∧
    isOkOrNoImage (extractImage (GenResponse.mk none)) = true :=
  ⟨Or.inl rfl, c4_total_when_guarded (GenResponse.mk none) (Or.inl rfl)⟩

/-- C5: when the edit call succeeds with URL `url`, both `handleRemove`
(App.tsx) and `processImage` (index.tsx) set `resultUrl` of the current
image to `url`, leave `originalUrl`, `originalBase64` and `mimeType`
unchanged, and set the status to not loading with empty message and no
error. -/
theorem c5_success_state (st : AppState) (img : ImageState) (c : Option String)
    (ins url : String) (h : st.image = some img) :
    handleRemove st c ins (fun _ _ _ => Except.ok url) =
      { image := some { img with resultUrl := some url }
        status := { isLoading := false, message := "", error := none } } ∧
    processImage st ins (fun _ _ _ => Except.ok url) =
      { image := some { img with resultUrl := some url }
        status := { isLoading := false, message := "", error := none } } := by
  constructor <;>
    simp [handleRemove, handleRemoveT, processImage, h]

/-- Witness for C5 at the fixture state `st0` and result URL
`data:image/png;base64,QUJD`. -/
theorem c5_success_state_witness :
    st0.image = some img0 ∧
    (handleRemove st0 none "" (fun _ _ _ => Except.ok "data:image/png;base64,QUJD") =
      { image := some { img0 with resultUrl := some "data:image/png;base64,QUJD" }
        status := { isLoading := false, message := "", error := none } } ∧
    processImage st0 "" (fun _ _ _ => Except.ok "data:image/png;base64,QUJD") =
      { image := some { img0 with resultUrl := some "data:image/png;base64,QUJD" }
        status := { isLoading := false, message := "", error := none } }) :=
  ⟨by decide, c5_success_state st0 img0 none "" "data:image/png;base64,QUJD" (by decide)⟩

/-- C6: for every invocation of `handleRemove` while an image is loaded,
the instruction sent to the service is the caller-supplied preset argument
when one is given (App.tsx only ever passes the five `removalPresetList`
strings, all nonempty, so JavaScript `||` takes them), otherwise the
user's non-empty free-form instruction text, otherwise the
`TRANSPARENT_BG` preset string. -/
theorem c6_instruction_choice (st : AppState) (img : ImageState)
    (c : Option String) (ins : String)
    (edit : Option String → String → String → Except String String)
    (him : st.image = some img)
    (hc : c = none ∨ ∃ p, c = some p ∧ p ∈ removalPresetList) :
    (handleRemoveT st c ins edit).1 =
      some (match c with
            | some p => p
            | none => if ins = "" then RemovalPresets.TRANSPARENT_BG else ins) := by
  rcases hc with rfl | ⟨p, rfl, hp⟩
  · simp [handleRemoveT, him, jsOrOpt, jsOr]
  · have hpne : ¬ (p = "") := by
      simp only [removalPresetList, List.mem_cons, List.not_mem_nil, or_false] at hp
      rcases hp with rfl | rfl | rfl | rfl | rfl <;> decide
    simp [handleRemoveT, him, jsOrOpt, jsOr, hpne]

/-- Witness for C6 at the fixture state `st0` with the `TRANSPARENT_BG`
preset supplied by the caller. -/
theorem c6_instruction_choice_witness :
    st0.image = some img0 ∧
    ((some RemovalPresets.TRANSPARENT_BG : Option String) = none ∨
      ∃ p, (some RemovalPresets.TRANSPARENT_BG : Option String) = some p ∧
        p ∈ removalPresetList) ∧
    (handleRemoveT st0 (some RemovalPresets.TRANSPARENT_BG) ""
        (fun _ _ _ => Except.ok "u")).1 = some RemovalPresets.TRANSPARENT_BG :=
  ⟨by decide,
   Or.inr ⟨RemovalPresets.TRANSPARENT_BG, rfl, by simp [removalPresetList]⟩,
   c6_instruction_choice st0 img0 (some RemovalPresets.TRANSPARENT_BG) ""
     (fun _ _ _ => Except.ok "u") (by decide)
     (Or.inr ⟨RemovalPresets.TRANSPARENT_BG, rfl, by simp [removalPresetList]⟩)⟩

/-- C7: after a successful upload of a file whose type starts with
`image/`, given that the FileReader's data URL consists of a comma-free
part `a`, a comma, and a comma-free remainder `b` (the shape
`readAsDataURL` always produces), the stored image state has `originalUrl`
the full data URL, `originalBase64` the substring after its first comma,
`mimeType` the uploaded file's type, and `resultUrl` null, while the
status is simultaneously reset to not loading with empty message and no
error; this holds for `handleFileUpload` of App.tsx and the identical
`handleFileChange` of index.tsx. -/
theorem c7_upload_success (st : AppState) (f : File) (readerResult : String)
    (a b : List Char)
    (htype : jsStartsWith f.type.data "image/".data = true)
    (hdata : readerResult.data = a ++ ',' :: b)
    (ha : ',' ∉ a) (hb : ',' ∉ b) :
    handleFileUpload st (some f) readerResult =
      { image := some
          { originalUrl := readerResult
            originalBase64 := some (String.mk b)
            resultUrl := none
            mimeType := f.type }
        status := { isLoading := false, message := "", error := none } } ∧
    handleFileChange st (some f) readerResult =
      { image := some
          { originalUrl := readerResult
            originalBase64 := some (String.mk b)
            resultUrl := none
            mimeType := f.type }
        status := { isLoading := false, message := "", error := none } } := by
  have hsplit : strSplitComma readerResult = [String.mk a, String.mk b] := by
    unfold strSplitComma
    rw [hdata, splitOnComma_append a b ha, splitOnComma_eq_single b hb]
    rfl
  constructor <;>
    simp [handleFileUpload, handleFileChange, htype, hsplit]

/-- Witness for C7 at a png upload whose reader result is
`data:image/png;base64,QUJD`. -/
theorem c7_upload_success_witness :
    (jsStartsWith ("image/png" : String).data ("image/" : String).data = true ∧
      ("data:image/png;base64,QUJD" : String).data =
        ("data:image/png;base64" : String).data ++ ',' :: ("QUJD" : String).data ∧
      ',' ∉ ("data:image/png;base64" : String).data ∧
      ',' ∉ ("QUJD" : String).data) ∧
    handleFileUpload st0 (some { type := "image/png" }) "data:image/png;base64,QUJD" =
      { image := some
          { originalUrl := "data:image/png;base64,QUJD"
            originalBase64 := some (String.mk ("QUJD" : String).data)
            resultUrl := none
            mimeType := "image/png" }
        status := { isLoading := false, message := "", error := none } } :=
  ⟨⟨by decide, by decide, by decide, by decide⟩,
   (c7_upload_success st0 { type := "image/png" } "data:image/png;base64,QUJD"
     ("data:image/png;base64" : String).data ("QUJD" : String).data
     (by decide) (by decide) (by decide) (by decide)).1⟩

/-- C8: each invocation of `editImage` issues exactly one generation
request, addressed to the model `gemini-2.5-flash-image`, whose contents
are exactly two parts in order: first the inline image data (the stored
base64 payload with its stored mime type), then the text instruction. -/
theorem c8_single_request (api : GenRequest → GenResponse) (b m i : String) :
    (editImageT api b m i).1 =
      [{ model := "gemini-2.5-flash-image"
         parts := [ReqPart.inline b m, ReqPart.text i] }] := rfl

/-- C9 fails as stated: started from the same state, with the same
instruction and the same outcome — an error whose message is the empty
string — `handleRemove` (App.tsx) ends with the fallback error text while
`processImage` (index.tsx) stores the empty message, so the final
`ProcessingStatus` differs. -/
theorem c9_counterexample :
    handleRemove st0 (some "erase the cat") "" (fun _ _ _ => Except.error "") ≠
      processImage st0 "erase the cat" (fun _ _ _ => Except.error "") := by
  decide

/-- C9 (amended): started from the same image state and given the same
outcome of the underlying edit call, `handleRemove` (App.tsx) and
`processImage` (index.tsx) leave the same final image state and the same
final `ProcessingStatus`, provided that a thrown error carries a nonempty
message; when the message is empty, App.tsx substitutes its fallback text
while index.tsx stores the empty message. -/
theorem c9_pipelines_equivalent (st : AppState) (c : Option String)
    (ins i : String) (outcome : Except String String)
    (h : ∀ msg, outcome = Except.error msg → msg ≠ "") :
    handleRemove st c ins (fun _ _ _ => outcome) =
      processImage st i (fun _ _ _ => outcome) := by
  obtain ⟨imgOpt, stt⟩ := st
  cases imgOpt with
  | none => rfl
  | some img =>
    cases outcome with
    | ok url => simp [handleRemove, handleRemoveT, processImage]
    | error msg =>
      have hne := h msg rfl
      simp [handleRemove, handleRemoveT, processImage, jsOr, hne]

/-- Witness for the amended C9 at the fixture state `st0` and a successful
outcome. -/
theorem c9_pipelines_equivalent_witness :
    (∀ msg, (Except.ok "data:image/png;base64,QUJD" : Except String String) =
        Except.error msg → msg ≠ "") ∧
    handleRemove st0 (some "erase the cat") ""
        (fun _ _ _ => (Except.ok "data:image/png;base64,QUJD" : Except String String)) =
      processImage st0 "erase the cat"
        (fun _ _ _ => (Except.ok "data:image/png;base64,QUJD" : Except String String)) :=
  ⟨fun _ hmsg => Except.noConfusion hmsg,
   c9_pipelines_equivalent st0 (some "erase the cat") "" "erase the cat"
     (Except.ok "data:image/png;base64,QUJD")
     (fun _ hmsg => Except.noConfusion hmsg)⟩

/-- C10: if the selected file's type does not start with `image/`, the
upload handler (`handleFileUpload` in App.tsx, the identical
`handleFileChange` in index.tsx) leaves the image state, including any
previously displayed result, completely unchanged and sets only the
status `error` field to `'Please upload a valid image file.'`, preserving
the current `isLoading` and `message` values. -/
theorem c10_invalid_type (st : AppState) (f : File) (readerResult : String)
    (h : jsStartsWith f.type.data "image/".data = false) :
    handleFileUpload st (some f) readerResult =
      { st with status := { st.status with error := some "Please upload a valid image file." } } ∧
    handleFileChange st (some f) readerResult =
      { st with status := { st.status with error := some "Please upload a valid image file." } } := by
  constructor <;>
    simp [handleFileUpload, handleFileChange, h]

/-- Witness for C10 at the fixture state `st0` and a `text/plain` file. -/
theorem c10_invalid_type_witness :
    jsStartsWith ("text/plain" : String).data ("image/" : String).data = false ∧
    (handleFileUpload st0 (some { type := "text/plain" }) "zzz" =
      { st0 with status := { st0.status with error := some "Please upload a valid image file." } } ∧
    handleFileChange st0 (some { type := "text/plain" }) "zzz" =
      { st0 with status := { st0.status with error := some "Please upload a valid image file." } }) :=
  ⟨by decide, c10_invalid_type st0 { type := "text/plain" } "zzz" (by decide)⟩
